import Mathlib

/-!
Verification of the yunbot OneBot v11 client library against its
specification.  Python functions from `src/yunbot` are shallowly embedded
as executable Lean definitions; strings are modelled as `List Char`
(`String.data`), Python dicts as insertion-ordered association lists, and
Python exceptions as an inductive type mirroring `exceptions.py`.
-/

/-! ## Text escape / unescape (`utils.py`, `escape_text` / `unescape_text`)

Python `str.replace(old, new)` replaces every non-overlapping occurrence of
`old`, scanning left to right.  `replaceL p ps repl s` is that operation on
character lists for the non-empty pattern `p :: ps`.
-/

/-- Python-style check that `pat` is a prefix of `s` (char by char). -/
def pyIsPre : List Char → List Char → Bool
  | [], _ => true
  | _ :: _, [] => false
  | p :: ps, c :: cs => p == c && pyIsPre ps cs

/-- Python `s.replace(p :: ps, repl)` on character lists: scan left to
right, replace each non-overlapping occurrence of the pattern. -/
def replaceL (p : Char) (ps : List Char) (repl : List Char) : List Char → List Char
  | [] => []
  | c :: cs =>
    if pyIsPre (p :: ps) (c :: cs) then
      repl ++ replaceL p ps repl (List.drop ps.length cs)
    else
      c :: replaceL p ps repl cs
termination_by s => s.length
decreasing_by
  · simp [List.length_drop]; omega
  · simp

/-- Replacement text for `&`. -/
def ampRepl : List Char := ['&', 'a', 'm', 'p', ';']

/-- Replacement text for `[`. -/
def lbRepl : List Char := ['&', '#', '9', '1', ';']

/-- Replacement text for `]`. -/
def rbRepl : List Char := ['&', '#', '9', '3', ';']

/-- `utils.escape_text` on character lists: replace `&`, then `[`, then `]`. -/
def escapeL (s : List Char) : List Char :=
  replaceL ']' [] rbRepl (replaceL '[' [] lbRepl (replaceL '&' [] ampRepl s))

/-- `utils.unescape_text` on character lists: replace back in the opposite
order, `&#93;` first, then `&#91;`, then `&amp;` last. -/
def unescapeL (s : List Char) : List Char :=
  replaceL '&' ['a', 'm', 'p', ';'] ['&']
    (replaceL '&' ['#', '9', '1', ';'] ['[']
      (replaceL '&' ['#', '9', '3', ';'] [']'] s))

/-- `utils.escape_text`. -/
def escape_text (s : String) : String := ⟨escapeL s.data⟩

/-- `utils.unescape_text`. -/
def unescape_text (s : String) : String := ⟨unescapeL s.data⟩

/-- Character-wise description of a fully escaped text: the image of
`escape_text`. -/
def escC (c : Char) : List Char :=
  if c = '&' then ampRepl else if c = '[' then lbRepl else if c = ']' then rbRepl else [c]

/-- Character-wise description of the intermediate text after replacing
only `&` (the state between the first and second substitution). -/
def escC1 (c : Char) : List Char :=
  if c = '&' then ampRepl else [c]

/-- Character-wise description of the text after replacing `&` and `[`
but not yet `]`. -/
def escC2 (c : Char) : List Char :=
  if c = '&' then ampRepl else if c = '[' then lbRepl else [c]

/-- Concatenate a character-wise escape map over a character list. -/
def escAllWith (f : Char → List Char) : List Char → List Char
  | [] => []
  | c :: cs => f c ++ escAllWith f cs

/-! ## Message model (`message.py`)

A `MessageSegment` is a `(type, data)` pair; `data` is an
insertion-ordered dict from string keys to simple values.  A `Message`
is an ordered list of segments.
-/

/-- A value stored in a segment's `data` dict. -/
inductive SegVal
  | str (s : String)
  | int (n : Int)
  | bool (b : Bool)
deriving DecidableEq, Repr

/-- `message.MessageSegment`: a `(type, data)` pair. -/
structure MessageSegment where
  type : String
  data : List (String × SegVal)
deriving DecidableEq, Repr

/-- `message.Message`: an ordered sequence of segments. -/
abbrev Message := List MessageSegment

/-- `MessageSegment.text` factory. -/
def MessageSegment.textSeg (t : String) : MessageSegment :=
  ⟨"text", [("text", SegVal.str t)]⟩

/-- `Message.to_dict`: dump every segment to its `(type, data)` record. -/
def Message.to_dict (m : Message) : List (String × List (String × SegVal)) :=
  m.map (fun s => (s.type, s.data))

/-- `Message.from_dict`: rebuild each segment from its `(type, data)`
record (the `Message(list-of-segments)` constructor path uses the list
as-is, and the empty list yields the empty message). -/
def Message.from_dict (d : List (String × List (String × SegVal))) : Message :=
  d.map (fun p => ⟨p.1, p.2⟩)

/-! ### Inline CQ-code parsing (`Message._parse_cq_code`)

The source scans the string with the regex
`\[CQ:([^,\]]+)((?:,[^,=]+=[^,\]]*)*)\]` via `finditer` (leftmost,
non-overlapping) and splits each parameter run on `,` and the first `=`.
Because every character class excludes its own delimiters, the regex is
deterministic; `cqParams` / `cqTryAt` implement exactly that match, and
`cqScanA` implements the `finditer` walk with the plain-text pieces
between matches.  Recursion is driven by a fuel argument that the
top-level wrapper instantiates with the string length (an upper bound on
the number of scan steps, since every step consumes at least one
character).
-/

/-- Characters that terminate a CQ parameter key (`[^,=]+`). -/
def cqKeyStop (c : Char) : Bool := c = ',' || c = '='

/-- Characters that terminate a CQ type or value run (`[^,\]]`). -/
def cqValStop (c : Char) : Bool := c = ',' || c = ']'

/-- Parse the `((?:,key=value)*)\]` tail of a CQ code starting right
after the type run.  Returns the key/value pairs and the characters
after the closing bracket, or `none` when the regex does not match. -/
def cqParams : Nat → List Char → Option (List (String × String) × List Char)
  | _, ']' :: rest => some ([], rest)
  | fuel + 1, ',' :: rest =>
    let key := rest.takeWhile (fun c => !cqKeyStop c)
    if key.isEmpty then none
    else
      match rest.drop key.length with
      | '=' :: r2 =>
        let v := r2.takeWhile (fun c => !cqValStop c)
        match cqParams fuel (r2.drop v.length) with
        | some (ps, rem) => some ((⟨key⟩, ⟨v⟩) :: ps, rem)
        | none => none
      | _ => none
  | _, _ => none

/-- Store one CQ parameter into the segment's `data` dict
(`data[key] = value`: replace an existing key, else append). -/
def dictPut (d : List (String × SegVal)) (k : String) (v : SegVal) :
    List (String × SegVal) :=
  if d.any (fun p => p.1 == k) then
    d.map (fun p => if p.1 == k then (k, v) else p)
  else d ++ [(k, v)]

/-- Build a segment's data dict from parsed CQ parameters. -/
def cqDataOf (ps : List (String × String)) : List (String × SegVal) :=
  ps.foldl (fun d kv => dictPut d kv.1 (SegVal.str kv.2)) []

/-- Try to match one full CQ code at the very start of `l`.  On success
return the parsed segment and the remaining characters. -/
def cqTryAt (l : List Char) : Option (MessageSegment × List Char) :=
  match l with
  | '[' :: 'C' :: 'Q' :: ':' :: rest =>
    let t := rest.takeWhile (fun c => !cqValStop c)
    if t.isEmpty then none
    else
      match cqParams rest.length (rest.drop t.length) with
      | some (ps, rem) => some (⟨⟨t⟩, cqDataOf ps⟩, rem)
      | none => none
  | _ => none

/-- Flush a pending plain-text run into the segment list (the source
only appends non-empty plain text). -/
def flushText (pending : List Char) : List MessageSegment :=
  if pending.isEmpty then [] else [MessageSegment.textSeg ⟨pending⟩]

/-- The `finditer` walk of `_parse_cq_code`: at each position, emit the
leftmost CQ match or push the character onto the pending plain text. -/
def cqScanA : Nat → List Char → List Char → List MessageSegment → List MessageSegment
  | _, [], pending, acc => acc ++ flushText pending
  | 0, l, pending, acc => acc ++ flushText (pending ++ l)
  | fuel + 1, c :: rest, pending, acc =>
    match cqTryAt (c :: rest) with
    | some (seg, rem) => cqScanA fuel rem [] (acc ++ flushText pending ++ [seg])
    | none => cqScanA fuel rest (pending ++ [c]) acc

/-- `Message._parse_cq_code` / `Message("...")`: parse inline CQ markup;
when no segment at all was produced, the whole string becomes a single
text segment (so the empty string yields one empty text segment). -/
def parseCQ (s : String) : List MessageSegment :=
  let segs := cqScanA (s.data.length + 1) s.data [] []
  if segs.isEmpty then [MessageSegment.textSeg s] else segs

/-! ## Matcher text rules (`matcher.py`, `command`)

`command(cmd)` builds a checker over message events.  Text extraction
concatenates the `text` field of every `text`-typed element of a
segment-list payload (`text += seg.get("data", {}).get("text", "")` —
a missing field contributes the default `""`, but a non-string value
makes the `+=` raise `TypeError`), or uses a plain-string payload
as-is.  The checker strips one leading `/`, then compares the first
whitespace-delimited token (`str.split()`).  On text with no token at
all, `text.split()[0]` raises `IndexError`.  Both exceptions are
modelled as `none` in an `Option` result (the registry's
`handle_event` catches and logs them, so such an event never matches).
-/

/-- Python `str.split()` whitespace: exactly the characters a
no-argument `split()` splits on (U+0009–U+000D, U+001C–U+001F, space,
U+0085, U+00A0, U+1680, U+2000–U+200A, U+2028, U+2029, U+202F, U+205F,
U+3000). -/
def isPyWs (c : Char) : Bool :=
  (0x09 ≤ c.toNat && c.toNat ≤ 0x0d) || (0x1c ≤ c.toNat && c.toNat ≤ 0x1f) ||
  c.toNat = 0x20 || c.toNat = 0x85 || c.toNat = 0xa0 || c.toNat = 0x1680 ||
  (0x2000 ≤ c.toNat && c.toNat ≤ 0x200a) || c.toNat = 0x2028 ||
  c.toNat = 0x2029 || c.toNat = 0x202f || c.toNat = 0x205f || c.toNat = 0x3000

/-- Python `str.split()` on character lists: split on whitespace runs,
discarding leading/trailing whitespace and empty tokens. -/
def pySplitChars : List Char → List Char → List (List Char)
  | [], cur => if cur.isEmpty then [] else [cur.reverse]
  | c :: cs, cur =>
    if isPyWs c then
      if cur.isEmpty then pySplitChars cs [] else cur.reverse :: pySplitChars cs []
    else pySplitChars cs (c :: cur)

/-- Python `str.split()` (no separator argument). -/
def pySplit (s : String) : List String :=
  (pySplitChars s.data []).map (fun l => ⟨l⟩)

/-- A message event's `message` payload: a plain string or a segment
list (segment-dict records, as delivered on the wire). -/
inductive MsgPayload
  | ofStr (s : String)
  | ofSegs (l : List MessageSegment)
deriving DecidableEq

/-- An event as seen by the matcher rules: either a message event
carrying a payload, or any non-message event. -/
inductive EventM
  | msg (payload : MsgPayload)
  | other (postType : String)
deriving DecidableEq

/-- Text extraction from a segment-list payload: concatenate the `text`
data field of every element whose type is exactly `"text"`.  A missing
`text` field contributes the `.get` default `""`; a present but
non-string value makes `text += ...` raise `TypeError`, modelled as
`none`. -/
def segsText : List MessageSegment → Option String
  | [] => some ""
  | s :: rest =>
    if s.type == "text" then
      match s.data.lookup "text" with
      | some (SegVal.str t) => (segsText rest).map (fun r => t ++ r)
      | some _ => Option.none
      | Option.none => segsText rest
    else segsText rest

/-- Text extraction from a message payload (`none` = the extraction
loop raised `TypeError`). -/
def extractTextP : MsgPayload → Option String
  | .ofStr s => some s
  | .ofSegs l => segsText l

/-- The argument of `command`: one name or a tuple of alternatives. -/
inductive CmdSpec
  | single (c : String)
  | alts (cs : List String)

/-- The token comparison of `command`: equality against the single name,
or membership in the alternatives. -/
def cmdTokMatches : CmdSpec → String → Bool
  | .single c, tok => tok == c
  | .alts cs, tok => cs.contains tok

/-- Strip one leading `/` if present (`text.startswith('/')` then
`text[1:]`). -/
def stripSlash (t : String) : String :=
  match t.data with
  | '/' :: rest => ⟨rest⟩
  | _ => t

/-- `matcher.command(cmd)`'s checker.  `none` models an exception: the
`TypeError` raised during text extraction on a non-string `text` field,
or the `IndexError` raised by `text.split()[0]` when the text has no
token. -/
def commandChecker (cmd : CmdSpec) (e : EventM) : Option Bool :=
  match e with
  | .other _ => some false
  | .msg p =>
    match extractTextP p with
    | Option.none => Option.none
    | some text =>
      let t := stripSlash text
      match pySplit t with
      | [] => Option.none
      | tok :: _ => some (cmdTokMatches cmd tok)

/-! ## Event model and decoder (`event.py`, `parse_event`)

An inbound record is a JSON object, modelled as an association list.
Each concrete pydantic model is identified by an `EvShape`;
`requiredKeys` lists its required fields (those declared `Field(...)`
with no default, own and inherited — discriminator fields that a
subclass defaults, such as `MessageEvent.post_type` or
`PrivateMessageEvent.message_type`, are not required).  Validation is
modelled as presence of every required field; extra fields are retained
(the decoded value carries the whole record).
-/

/-- A wire value in an event record. -/
inductive EvVal
  | str (s : String)
  | int (n : Int)
  | other
deriving DecidableEq

/-- An inbound event record. -/
abbrev EvDict := List (String × EvVal)

/-- `data.get(key)`. -/
def evGet (d : EvDict) (k : String) : Option EvVal := d.lookup k

/-- Python `x == "lit"` for a value fetched with `.get` (a missing or
non-string value never equals a string literal / str-enum member). -/
def pyEqS (v : Option EvVal) (s : String) : Bool :=
  match v with
  | some (.str t) => t == s
  | _ => false

/-- The concrete event models of `event.py`. -/
inductive EvShape
  | event | messageEvent | privateMsg | groupMsg
  | noticeEvent | groupUpload | groupAdmin | groupDecrease | groupIncrease
  | groupBan | friendAdd | groupRecall | friendRecall | notifyNotice
  | groupCard | offlineFile | essence
  | requestEvent | friendReq | groupReq
  | metaEvent | lifecycle | heartbeat
deriving DecidableEq, Repr

/-- The required (no-default) pydantic fields of each model, inherited
fields included.  `time` has a default factory and is never required. -/
def requiredKeys : EvShape → List String
  | .event => ["self_id", "post_type"]
  | .messageEvent => ["self_id", "message_type", "sub_type", "message_id", "user_id", "message"]
  | .privateMsg => ["self_id", "sub_type", "message_id", "user_id", "message"]
  | .groupMsg => ["self_id", "sub_type", "message_id", "user_id", "message", "group_id"]
  | .noticeEvent => ["self_id", "notice_type"]
  | .groupUpload => ["self_id", "group_id", "user_id", "file"]
  | .groupAdmin => ["self_id", "sub_type", "group_id", "user_id"]
  | .groupDecrease => ["self_id", "sub_type", "group_id", "operator_id", "user_id"]
  | .groupIncrease => ["self_id", "sub_type", "group_id", "operator_id", "user_id"]
  | .groupBan => ["self_id", "sub_type", "group_id", "operator_id", "user_id", "duration"]
  | .friendAdd => ["self_id", "user_id"]
  | .groupRecall => ["self_id", "group_id", "user_id", "operator_id", "message_id"]
  | .friendRecall => ["self_id", "user_id", "message_id"]
  | .notifyNotice => ["self_id", "sub_type", "group_id", "user_id"]
  | .groupCard => ["self_id", "group_id", "user_id", "card_new", "card_old"]
  | .offlineFile => ["self_id", "user_id", "file"]
  | .essence => ["self_id", "sub_type", "group_id", "sender_id", "operator_id", "message_id"]
  | .requestEvent => ["self_id", "request_type"]
  | .friendReq => ["self_id", "user_id", "comment", "flag"]
  | .groupReq => ["self_id", "sub_type", "group_id", "user_id", "comment", "flag"]
  | .metaEvent => ["self_id", "meta_event_type"]
  | .lifecycle => ["self_id", "sub_type"]
  | .heartbeat => ["self_id", "status", "interval"]

/-- Does the record carry every required field of the shape? -/
def hasReq (s : EvShape) (d : EvDict) : Bool :=
  (requiredKeys s).all (fun k => (evGet d k).isSome)

/-- `Shape.model_validate(data)`: succeed (retaining the whole record)
iff every required field is present. -/
def modelValidate (s : EvShape) (d : EvDict) : Except Unit (EvShape × EvDict) :=
  if hasReq s d then .ok (s, d) else .error ()

/-- `event.parse_event`: branch on `post_type`, then on the secondary
discriminator, with the tertiary `notify` / `sub_type == "group_card"`
branch; every unrecognized discriminator falls through to the nearest
ancestor model. -/
def parseEvent (d : EvDict) : Except Unit (EvShape × EvDict) :=
  let pt := evGet d "post_type"
  if pyEqS pt "message" then
    let mt := evGet d "message_type"
    if pyEqS mt "private" then modelValidate .privateMsg d
    else if pyEqS mt "group" then modelValidate .groupMsg d
    else modelValidate .messageEvent d
  else if pyEqS pt "notice" then
    let nt := evGet d "notice_type"
    if pyEqS nt "group_upload" then modelValidate .groupUpload d
    else if pyEqS nt "group_admin" then modelValidate .groupAdmin d
    else if pyEqS nt "group_decrease" then modelValidate .groupDecrease d
    else if pyEqS nt "group_increase" then modelValidate .groupIncrease d
    else if pyEqS nt "group_ban" then modelValidate .groupBan d
    else if pyEqS nt "friend_add" then modelValidate .friendAdd d
    else if pyEqS nt "group_recall" then modelValidate .groupRecall d
    else if pyEqS nt "friend_recall" then modelValidate .friendRecall d
    else if pyEqS nt "notify" then
      if pyEqS (evGet d "sub_type") "group_card" then modelValidate .groupCard d
      else modelValidate .notifyNotice d
    else if pyEqS nt "offline_file" then modelValidate .offlineFile d
    else if pyEqS nt "essence" then modelValidate .essence d
    else modelValidate .noticeEvent d
  else if pyEqS pt "request" then
    let rt := evGet d "request_type"
    if pyEqS rt "friend" then modelValidate .friendReq d
    else if pyEqS rt "group" then modelValidate .groupReq d
    else modelValidate .requestEvent d
  else if pyEqS pt "meta_event" then
    let mt := evGet d "meta_event_type"
    if pyEqS mt "lifecycle" then modelValidate .lifecycle d
    else if pyEqS mt "heartbeat" then modelValidate .heartbeat d
    else modelValidate .metaEvent d
  else modelValidate .event d

/-! ## Exceptions (`exceptions.py`) and the RPC call path
(`connection.py` `send_request`, `bot.py` `call_api`)

`PyExc` mirrors the exception classes this path can raise.
`ApiNotAvailable` and `NetworkException` are sibling subclasses of
`OneBotException`: a `NetworkException` is not an instance of
`ApiNotAvailable`.
-/

/-- A simple Python value carried in responses / parameters. -/
inductive PVal
  | str (s : String)
  | int (n : Int)
  | dict (d : List (String × PVal))
  | none

/-- The exceptions raised on the RPC call path, with their constructor
fields from `exceptions.py`. -/
inductive PyExc
  | oneBot (message : String)
  | networkExc (message : String) (statusCode : Option Int) (retryCount : Nat)
  | actionFailed (message : String) (retcode : Option Int) (status : Option String)
      (data : Option PVal) (api : Option String) (params : Option (List (String × PVal)))
  | apiNotAvailable (message : String)

/-- Is the exception an instance of `ApiNotAvailable`?  (No class in
`exceptions.py` subclasses it.) -/
def PyExc.isApiNotAvailable : PyExc → Bool
  | .apiNotAvailable _ => true
  | _ => false

/-- Is the exception an instance of `NetworkException`? -/
def PyExc.isNetworkExc : PyExc → Bool
  | .networkExc _ _ _ => true
  | _ => false

/-- Python `str(e)` for the exceptions above, following each class's
`str` method (a `None` or `0` field renders no extra part). -/
def excStr : PyExc → String
  | .oneBot m => m
  | .networkExc m sc rc =>
    m ++ (match sc with
          | some n => if n = 0 then "" else " | 状态码: " ++ toString n
          | none => "")
      ++ (if rc = 0 then "" else " | 已重试: " ++ toString rc ++ "次")
  | .actionFailed m rc st _ api _ =>
    m ++ (match rc with | some n => " | 返回码: " ++ toString n | none => "")
      ++ (match st with | some s => if s.isEmpty then "" else " | 状态: " ++ s | none => "")
      ++ (match api with | some a => if a.isEmpty then "" else " | API: " ++ a | none => "")
  | .apiNotAvailable m => "API不可用: " ++ m

/-- The state of a `WebSocketConnection` relevant to `send_request`:
the `connected` flag, the `_closed` flag, and whether `_ws` is set. -/
structure ConnState where
  connected : Bool
  closed : Bool
  hasWs : Bool
deriving DecidableEq

/-- `WebSocketConnection.is_connected`: connected and not closed. -/
def ConnState.is_connected (st : ConnState) : Bool :=
  st.connected && !st.closed

/-- The JSON text frame written by `send_request`. -/
structure WireFrame where
  action : String
  params : List (String × PVal)
  echo : String

/-- The synchronous prefix of `WebSocketConnection.send_request`, up to
the first await: when `is_connected` is false or `_ws` is unset it
raises `NetworkException("WebSocket连接未建立")` before generating a
correlation id, writing a frame, or registering a slot with the result
store; otherwise it writes the `{action, params, echo}` frame and
registers `freshEcho` (the value `generate_request_id()` produced) for
`fetch`.  The `.ok` payload is the written frame paired with the
registered correlation id; the `.error` branch carries neither. -/
def sendRequestStart (st : ConnState) (action : String)
    (params : List (String × PVal)) (freshEcho : String) :
    Except PyExc (WireFrame × String) :=
  if !st.is_connected || !st.hasWs then
    .error (.networkExc "WebSocket连接未建立" none 0)
  else
    .ok (⟨action, params, freshEcho⟩, freshEcho)

/-- The `data`-envelope unwrap shared by `send_request` and `call_api`:
return `result["data"]` when `result` is a dict containing that key,
else the value unchanged. -/
def unwrapData (r : PVal) : PVal :=
  match r with
  | .dict d =>
    match d.lookup "data" with
    | some v => v
    | Option.none => r
  | _ => r

/-- `OneBotBot.call_api(action, **params)`: raise
`ApiNotAvailable("Connection not available")` when the bound
connection's `is_connected` is false; otherwise delegate to
`send_request` (whose outcome is the `sendResult` argument), unwrap a
`data` envelope on success, and wrap any exception `e` as
`ActionFailed(f"API调用失败: {e}")` — every other `ActionFailed`
constructor field, the `api` name included, is left at `None`. -/
def callApi (connected : Bool) (action : String)
    (sendResult : Except PyExc PVal) : Except PyExc PVal :=
  if !connected then
    .error (.apiNotAvailable "Connection not available")
  else
    match sendResult with
    | .ok r => .ok (unwrapData r)
    | .error e =>
      .error (.actionFailed ("API调用失败: " ++ excStr e)
        Option.none Option.none Option.none Option.none Option.none)

/-! ## Result store (`store.py`)

The pending table maps correlation ids to futures, in insertion order
(Python dicts preserve it; `add_result_by_order` pops `next(iter(...))`,
the oldest entry).  Resolving a future is modelled as an explicit
resolution event carried in the return value.
-/

/-- The state of an `asyncio.Future` held in the table. -/
inductive FutState
  | pending
  | doneOk (v : PVal)
  | doneErr (m : String)
  | cancelled

/-- `future.done()`. -/
def FutState.done : FutState → Bool
  | .pending => false
  | _ => true

/-- An RPC response as consumed by the store: its `echo`, `status`,
`message` and `msg` fields (`none` = absent). -/
structure Resp where
  echo : Option String
  status : Option String
  message : Option String
  msg : Option String
deriving DecidableEq

/-- The pending-request table. -/
abbrev Store := List (String × FutState)

/-- `dict.pop(key)` on the table: remove the entry for `key`. -/
def eraseKey : Store → String → Store
  | [], _ => []
  | (k, v) :: t, e => if k = e then t else (k, v) :: eraseKey t e

/-- How a matched future is settled: with the full response unless
`status == "failed"`, in which case with a `NetworkException` whose
message comes from `message`, falling back to `msg`, then a default. -/
inductive FutResult
  | value (r : Resp)
  | failure (msg : String)
deriving DecidableEq

/-- The settle rule shared by `add_result` and `add_result_by_order`. -/
def settleFut (r : Resp) : FutResult :=
  if r.status = some "failed" then
    .failure (r.message.getD (r.msg.getD "API调用失败"))
  else .value r

/-- `ResultStore.add_result`: look up the response's `echo`; a falsy
(`None` or empty) or unknown echo matches nothing and leaves the table
unchanged.  On a hit the slot is popped, and resolved only when the
future is not yet done.  Returns (matched?, new table, resolution). -/
def addResult (st : Store) (r : Resp) : Bool × Store × Option (String × FutResult) :=
  match r.echo with
  | some e =>
    if e = "" then (false, st, Option.none)
    else
      match st.lookup e with
      | some fut =>
        let st2 := eraseKey st e
        match fut with
        | .pending => (true, st2, some (e, settleFut r))
        | _ => (false, st2, Option.none)
      | Option.none => (false, st, Option.none)
  | Option.none => (false, st, Option.none)

/-- `ResultStore.add_result_by_order`: pop the oldest pending entry
regardless of its id and settle it with the same rule. -/
def addResultByOrder (st : Store) (r : Resp) : Bool × Store × Option (String × FutResult) :=
  match st with
  | [] => (false, st, Option.none)
  | (e, fut) :: rest =>
    match fut with
    | .pending => (true, rest, some (e, settleFut r))
    | _ => (false, rest, Option.none)

/-! ## Client dynamic attribute access (`client.py`, `__getattr__`)

`OneBotClient.call_api` resolves a bot and delegates; its observable
effect is the `(action, params)` invocation it issues, modelled as a
`ClientCall`.  `__getattr__` turns any undefined attribute into
`partial(self.call_api, name)` unless the name both starts and ends
with a double underscore, in which case it raises `AttributeError`.
-/

/-- The invocation a client-level `call_api(action, **params)` issues. -/
structure ClientCall where
  action : String
  params : List (String × PVal)

/-- `OneBotClient.call_api` as the invocation it produces. -/
def clientCallApi (action : String) (params : List (String × PVal)) : ClientCall :=
  ⟨action, params⟩

/-- Python `name.startswith("__")`. -/
def startsDunder (name : String) : Bool :=
  match name.data with
  | '_' :: '_' :: _ => true
  | _ => false

/-- Python `name.endswith("__")`. -/
def endsDunder (name : String) : Bool :=
  match name.data.reverse with
  | '_' :: '_' :: _ => true
  | _ => false

/-- `OneBotClient.__getattr__(name)`: `AttributeError` for dunder-shaped
names, else a callable equal to `partial(call_api, name)`. -/
def clientGetattr (name : String) :
    Except String (List (String × PVal) → ClientCall) :=
  if startsDunder name && endsDunder name then
    .error ("'OneBotClient' object has no attribute '" ++ name ++ "'")
  else
    .ok (fun params => clientCallApi name params)

/-! ## `utils.deep_merge` over an explicit heap

To settle the frame/effect claim, Python dicts are modelled as heap
objects: a heap maps addresses to dict bodies, and a dict value is a
primitive or a reference to another dict.  `deep_merge` copies `dict1`
into a fresh object, then walks `dict2`'s entries, recursively merging
values that are dicts on both sides (building further fresh objects)
and overwriting otherwise.  Recursion carries fuel (Python itself would
not terminate on cyclic inputs); `none` means fuel ran out or a dangling
address was dereferenced.
-/

/-- A Python value inside a dict: a primitive or a reference to a dict
object on the heap. -/
inductive HVal
  | prim (s : String)
  | ref (a : Nat)
deriving DecidableEq

/-- A dict body: insertion-ordered key/value entries. -/
abbrev PyDict := List (String × HVal)

/-- The heap: addresses to dict bodies. -/
abbrev Heap := List (Nat × PyDict)

/-- Dereference an address. -/
def hLookup : Heap → Nat → Option PyDict
  | [], _ => Option.none
  | (k, v) :: t, a => if a = k then some v else hLookup t a

/-- Overwrite the object at an (existing) address. -/
def hSet : Heap → Nat → PyDict → Heap
  | [], _, _ => []
  | (k, v) :: t, a, d => if k = a then (a, d) :: hSet t a d else (k, v) :: hSet t a d

/-- An address unused by the heap. -/
def freshAddr (h : Heap) : Nat :=
  (h.map (fun p => p.1)).foldr max 0 + 1

/-- Allocate a new object, returning the extended heap and its address
(`dict1.copy()` allocates with the entries of the copied dict). -/
def allocObj (h : Heap) (d : PyDict) : Heap × Nat :=
  ((freshAddr h, d) :: h, freshAddr h)

/-- `d[k]` on a dict body. -/
def dGet (d : PyDict) (k : String) : Option HVal := d.lookup k

/-- `d[k] = v` on a dict body: replace an existing key in place, else
append (insertion order). -/
def dSet (d : PyDict) (k : String) (v : HVal) : PyDict :=
  if d.any (fun p => p.1 == k) then
    d.map (fun p => if p.1 == k then (k, v) else p)
  else d ++ [(k, v)]

/-- The `key in result and isinstance(result[key], dict) and
isinstance(value, dict)` test: both sides are dict references. -/
def isDictDict (rdk : Option HVal) (v : HVal) : Option (Nat × Nat) :=
  match rdk, v with
  | some (.ref b1), .ref b2 => some (b1, b2)
  | _, _ => Option.none

mutual

/-- `utils.deep_merge(dict1, dict2)` on the heap: copy `dict1` into a
fresh object, then fold `dict2`'s entries into it. -/
def deepMerge : Nat → Heap → Nat → Nat → Option (Heap × Nat)
  | 0, _, _, _ => Option.none
  | fuel + 1, h, a1, a2 =>
    match hLookup h a1 with
    | Option.none => Option.none
    | some d1 =>
      match hLookup h a2 with
      | Option.none => Option.none
      | some d2 =>
        match mergeEntries fuel ((freshAddr h, d1) :: h) (freshAddr h) d2 with
        | some h2 => some (h2, freshAddr h)
        | Option.none => Option.none
termination_by fuel _ _ _ => (fuel, 0)

/-- The `for key, value in dict2.items()` loop of `deep_merge`,
updating the result object at address `ra`. -/
def mergeEntries : Nat → Heap → Nat → List (String × HVal) → Option Heap
  | _, h, _, [] => some h
  | fuel, h, ra, (k, v) :: rest =>
    match hLookup h ra with
    | Option.none => Option.none
    | some rd =>
      match isDictDict (dGet rd k) v with
      | some (b1, b2) =>
        match deepMerge fuel h b1 b2 with
        | Option.none => Option.none
        | some (h2, rsub) =>
          match hLookup h2 ra with
          | Option.none => Option.none
          | some rd2 => mergeEntries fuel (hSet h2 ra (dSet rd2 k (.ref rsub))) ra rest
      | Option.none => mergeEntries fuel (hSet h ra (dSet rd k v)) ra rest
termination_by fuel _ _ es => (fuel, es.length + 1)

end

/-! # Theorems -/

/-- C5: for every constructed `Message` `m`,
`Message.from_dict(m.to_dict())` reproduces an equal ordered sequence of
`(type, data)` pairs, including for the empty (zero-segment) message. -/
theorem c5_message_dict_roundtrip (m : Message) :
    Message.from_dict (Message.to_dict m) = m := by
  induction m with
  | nil => rfl
  | cons s rest ih =>
    cases s
    simp only [Message.to_dict, Message.from_dict, List.map_cons] at *
    exact congrArg _ ih

/-- C9: accessing an undefined attribute on `OneBotClient` raises
`AttributeError` iff the name both starts and ends with a double
underscore; every other name yields a callable equal to
`partial(call_api, name)`. -/
theorem c9_client_getattr (name : String) :
    ((∃ e, clientGetattr name = .error e) ↔
      (startsDunder name = true ∧ endsDunder name = true))
    ∧ ((startsDunder name && endsDunder name) = false →
        clientGetattr name = .ok (fun params => clientCallApi name params)) := by
  constructor
  · constructor
    · rintro ⟨e, he⟩
      by_cases h : (startsDunder name && endsDunder name) = true
      · exact Bool.and_eq_true _ _ |>.mp h
      · simp [clientGetattr, h] at he
    · rintro ⟨h1, h2⟩
      exact ⟨"'OneBotClient' object has no attribute '" ++ name ++ "'",
        by simp [clientGetattr, h1, h2]⟩
  · intro h
    simp [clientGetattr, h]

/-- C9 witness: a single-underscore, internal-looking name is not an
`AttributeError` but a dynamic `call_api` pass-through. -/
theorem c9_client_getattr_witness :
    clientGetattr "_internal_name" =
      .ok (fun params => clientCallApi "_internal_name" params) :=
  (c9_client_getattr "_internal_name").2 (by decide)

/-- C2 counterexample: on a never-connected connection, `send_request`
raises `NetworkException("WebSocket连接未建立")`, which is not an
instance of `ApiNotAvailable` — the claimed API-unavailable error kind
is wrong. -/
theorem c2_counterexample :
    sendRequestStart ⟨false, false, false⟩ "get_login_info" [] "abc123" =
      .error (.networkExc "WebSocket连接未建立" Option.none 0)
    ∧ (PyExc.networkExc "WebSocket连接未建立" Option.none 0).isApiNotAvailable = false
    ∧ (PyExc.networkExc "WebSocket连接未建立" Option.none 0).isNetworkExc = true :=
  ⟨rfl, rfl, rfl⟩

/-- C2 amended: if the connection is not connected (never connected, or
already closed, or without a socket object), `send_request` fails
immediately with a `NetworkException` (not an `ApiNotAvailable`),
without writing any frame or registering any correlation slot (the
error branch carries no frame and no registered id). -/
theorem c2_send_request_not_connected (st : ConnState) (action : String)
    (params : List (String × PVal)) (freshEcho : String)
    (h : st.is_connected = false ∨ st.hasWs = false) :
    sendRequestStart st action params freshEcho =
      .error (.networkExc "WebSocket连接未建立" Option.none 0) := by
  rcases h with h | h <;> simp [sendRequestStart, h]

/-- C2 witness: a closed connection (connected once, then closed) gets
the immediate network error. -/
theorem c2_send_request_not_connected_witness :
    sendRequestStart ⟨true, true, true⟩ "send_msg" [] "e1" =
      .error (.networkExc "WebSocket连接未建立" Option.none 0) :=
  c2_send_request_not_connected ⟨true, true, true⟩ "send_msg" [] "e1" (Or.inl rfl)

/-- C3 counterexample: the `ActionFailed` that `call_api` wraps an
underlying failure into does not carry the action name: its `api` field
is `None`, and the whole wrapped exception is identical for two
different action names. -/
theorem c3_counterexample :
    callApi true "send_private_msg" (.error (.networkExc "boom" Option.none 0)) =
      .error (.actionFailed "API调用失败: boom"
        Option.none Option.none Option.none Option.none Option.none)
    ∧ callApi true "send_private_msg" (.error (.networkExc "boom" Option.none 0)) =
      callApi true "a_completely_different_action"
        (.error (.networkExc "boom" Option.none 0)) :=
  ⟨rfl, rfl⟩

/-- C3 amended: `call_api` fails with `ApiNotAvailable` when the bound
connection is not connected; otherwise it delegates to the connection's
`send_request`, unwraps a `data` envelope if present, and wraps any
other failure as an `ActionFailed` whose message carries the underlying
cause's text — but with no action name attached (its `api` field and
all other fields stay `None`; the action name is only logged). -/
theorem c3_call_api (connected : Bool) (action : String)
    (sendResult : Except PyExc PVal) :
    (connected = false →
      callApi connected action sendResult =
        .error (.apiNotAvailable "Connection not available"))
    ∧ (∀ r, connected = true → sendResult = .ok r →
        callApi connected action sendResult = .ok (unwrapData r))
    ∧ (∀ e, connected = true → sendResult = .error e →
        callApi connected action sendResult =
          .error (.actionFailed ("API调用失败: " ++ excStr e)
            Option.none Option.none Option.none Option.none Option.none)) := by
  refine ⟨?_, ?_, ?_⟩
  · intro h; simp [callApi, h]
  · intro r hc hs; subst hc; subst hs; simp [callApi]
  · intro e hc hs; subst hc; subst hs; simp [callApi]

/-- C3 witness: a disconnected connection yields `ApiNotAvailable`, and
a successful delegation unwraps the `data` envelope. -/
theorem c3_call_api_witness :
    callApi false "send_msg" (.ok (PVal.int 1)) =
      .error (.apiNotAvailable "Connection not available")
    ∧ callApi true "send_msg" (.ok (PVal.dict [("data", PVal.int 7)])) =
      .ok (PVal.int 7) :=
  ⟨(c3_call_api false "send_msg" (.ok (PVal.int 1))).1 rfl,
   (c3_call_api true "send_msg" (.ok (PVal.dict [("data", PVal.int 7)]))).2.1
     (PVal.dict [("data", PVal.int 7)]) rfl rfl⟩

/-- C8: `add_result` returns false, resolves no waiter and leaves the
pending table unchanged whenever the response's `echo` is absent, empty
or not among the pending ids; no `add_result` resolution ever targets
the empty-string id (so a slot registered under `""` can only be
resolved by `add_result_by_order`, which does match it when oldest). -/
theorem c8_add_result_no_match (st : Store) (r : Resp)
    (h : r.echo = Option.none ∨ r.echo = some "" ∨
         ∀ e, r.echo = some e → st.lookup e = Option.none) :
    addResult st r = (false, st, Option.none)
    ∧ (∀ st2 r2 e fr, (addResult st2 r2).2.2 = some (e, fr) → ¬ e = "")
    ∧ (∀ rest r3, (addResultByOrder (("", FutState.pending) :: rest) r3).1 = true) := by
  refine ⟨?_, ?_, fun rest r3 => rfl⟩
  · rcases h with h | h | h
    · simp [addResult, h]
    · simp [addResult, h]
    · rcases hre : r.echo with _ | e
      · simp [addResult, hre]
      · have hl := h e hre
        by_cases he : e = ""
        · simp [addResult, hre, he]
        · simp [addResult, hre, he, hl]
  · intro st2 r2 e fr hres
    rcases hre : r2.echo with _ | e2
    · simp [addResult, hre] at hres
    · by_cases he : e2 = ""
      · simp [addResult, hre, he] at hres
      · rcases hl : st2.lookup e2 with _ | fut
        · simp [addResult, hre, he, hl] at hres
        · cases fut with
          | pending =>
            simp [addResult, hre, he, hl] at hres
            intro hc
            exact he (hres.1 ▸ hc)
          | doneOk v => simp [addResult, hre, he, hl] at hres
          | doneErr m => simp [addResult, hre, he, hl] at hres
          | cancelled => simp [addResult, hre, he, hl] at hres

/-- C8 witness: a response whose echo is unknown matches nothing, even
though a slot is pending under the empty-string id. -/
theorem c8_add_result_no_match_witness :
    addResult [("", FutState.pending), ("a", FutState.pending)]
        ⟨some "zzz", Option.none, Option.none, Option.none⟩ =
      (false, [("", FutState.pending), ("a", FutState.pending)], Option.none) :=
  (c8_add_result_no_match _ _
    (Or.inr (Or.inr (fun e he => by injection he with h; subst h; rfl)))).1

/-- C6: the `command(name-or-set)` rule matches (its checker returns
`True`) iff the event is a message event whose text extraction
succeeds and, after stripping one leading `/` if present, the first
whitespace-delimited token of the extracted text equals the given name
(single form) or is a member of the given alternatives; it never
matches a non-message event.  In particular, `command(("help","h"))`
matches `"/help"` and `"/h extra"` but not `"/helper"`; splitting uses
Python's full whitespace set (so `"/help\x1cextra"` matches `"help"`);
a non-string `text` data field makes the extraction loop raise
`TypeError` (modelled as `none` — never a match), and token-less text
raises `IndexError` (also `none`); the registry catches both. -/
theorem c6_command_rule (cmd : CmdSpec) (e : EventM) :
    (commandChecker cmd e = some true ↔
      ∃ p, e = EventM.msg p ∧
        ∃ text, extractTextP p = some text ∧
          ∃ tok rest, pySplit (stripSlash text) = tok :: rest ∧
            cmdTokMatches cmd tok = true)
    ∧ (∀ pt, commandChecker cmd (EventM.other pt) = some false)
    ∧ commandChecker (CmdSpec.alts ["help", "h"])
        (EventM.msg (MsgPayload.ofStr "/help")) = some true
    ∧ commandChecker (CmdSpec.alts ["help", "h"])
        (EventM.msg (MsgPayload.ofStr "/h extra")) = some true
    ∧ commandChecker (CmdSpec.alts ["help", "h"])
        (EventM.msg (MsgPayload.ofStr "/helper")) = some false
    ∧ commandChecker (CmdSpec.single "help")
        (EventM.msg (MsgPayload.ofStr "/help\x1cextra")) = some true
    ∧ commandChecker (CmdSpec.single "help")
        (EventM.msg (MsgPayload.ofSegs
          [⟨"text", [("text", SegVal.int 5)]⟩,
           ⟨"text", [("text", SegVal.str "/help")]⟩])) = Option.none := by
  refine ⟨?_, fun pt => rfl, by decide, by decide, by decide, by decide, by decide⟩
  cases e with
  | other pt => simp [commandChecker]
  | msg p =>
    rcases het : extractTextP p with _ | text
    · simp [commandChecker, het]
    · rcases hsp : pySplit (stripSlash text) with _ | ⟨tok, rest⟩
      · simp [commandChecker, het, hsp]
      · simp only [commandChecker, het, hsp]
        constructor
        · intro h
          exact ⟨p, rfl, text, het, tok, rest, hsp, by simpa using h⟩
        · rintro ⟨p', hp, text', het', tok', rest', hlist, hm⟩
          injection hp with hp'
          subst hp'
          rw [het] at het'
          injection het' with htext
          subst htext
          rw [hsp] at hlist
          injection hlist with h1 h2
          subst h1
          simpa using hm

/-- Helper for C4: when no position of the string matches a CQ code, the
scan yields the accumulated plain text as a single run. -/
theorem cqScan_no_match : ∀ (l : List Char) (pending : List Char)
    (acc : List MessageSegment) (fuel : Nat), l.length ≤ fuel →
    (∀ i, i ≤ l.length → cqTryAt (l.drop i) = Option.none) →
    cqScanA fuel l pending acc = acc ++ flushText (pending ++ l) := by
  intro l
  induction l with
  | nil =>
    intro pending acc fuel _ _
    cases fuel <;> simp [cqScanA]
  | cons c rest ih =>
    intro pending acc fuel hf hnm
    cases fuel with
    | zero => simp at hf
    | succ f =>
      have h0 : cqTryAt (c :: rest) = Option.none := by
        have := hnm 0 (by omega)
        simpa using this
      have hstep : cqScanA (f + 1) (c :: rest) pending acc =
          cqScanA f rest (pending ++ [c]) acc := by
        simp [cqScanA, h0]
      rw [hstep, ih (pending ++ [c]) acc f (by simpa using hf)
          (fun i hi => by simpa using hnm (i + 1) (by simpa using hi))]
      simp

/-- C4: constructing a `Message` from a plain string parses inline
`[CQ:type,key=value,...]` markup into typed segments.  A string with no
markup anywhere — the empty string included — yields exactly one text
segment (one empty-text segment for `""`, not zero segments), and
`Message("[CQ:face,id=178]Hello")` yields exactly two segments: a
`face` segment with id `"178"` followed by a text segment `"Hello"`. -/
theorem c4_parse_cq (s : String)
    (hnm : ∀ i, i ≤ s.data.length → cqTryAt (s.data.drop i) = Option.none) :
    parseCQ s = [MessageSegment.textSeg s]
    ∧ parseCQ "" = [MessageSegment.textSeg ""]
    ∧ parseCQ "[CQ:face,id=178]Hello" =
        [⟨"face", [("id", SegVal.str "178")]⟩, MessageSegment.textSeg "Hello"] := by
  refine ⟨?_, by decide, by decide⟩
  have h := cqScan_no_match s.data [] [] (s.data.length + 1) (by omega) hnm
  simp only [parseCQ]
  rw [h]
  simp only [List.nil_append]
  rcases hd : s.data with _ | ⟨c, cs⟩
  · simp [flushText]
  · simp [flushText]
    rw [← hd]

/-- C4 witness: a markup-free string is one text segment. -/
theorem c4_parse_cq_witness : parseCQ "abc" = [MessageSegment.textSeg "abc"] :=
  (c4_parse_cq "abc" (by decide)).1

/-- Helper for C1: a wire value equal (in the Python `==` sense) to one
string literal is unequal to any different literal. -/
theorem pyEqS_unique {v : Option EvVal} {s s' : String}
    (h : pyEqS v s = true) (hne : ¬ s' = s) : pyEqS v s' = false := by
  rcases v with _ | w
  · simp [pyEqS] at h
  · rcases w with t | n | _
    · simp only [pyEqS, beq_iff_eq] at h ⊢
      subst h
      simp only [beq_eq_false_iff_ne, ne_eq]
      exact fun hc => hne hc.symm
    · simp [pyEqS] at h
    · simp [pyEqS] at h

/-- C1: `parse_event` branches on `post_type`, then on the matching
secondary discriminator (`message_type` / `notice_type` /
`request_type` / `meta_event_type`), with one tertiary branch for
`notify` / `sub_type == "group_card"`; a recognized pair selects its
concrete shape, and any unrecognized post-type, secondary or tertiary
discriminator yields the nearest concrete ancestor shape (generic
`MessageEvent`, `NoticeEvent`, `RequestEvent`, `MetaEvent`, or the root
`Event`) rather than failing, provided the record carries that
ancestor's required fields. -/
theorem c1_parse_event (d : EvDict) :
    (pyEqS (evGet d "post_type") "message" = true →
      (pyEqS (evGet d "message_type") "private" = true →
        hasReq .privateMsg d = true → parseEvent d = .ok (.privateMsg, d))
      ∧ (pyEqS (evGet d "message_type") "group" = true →
        hasReq .groupMsg d = true → parseEvent d = .ok (.groupMsg, d))
      ∧ (pyEqS (evGet d "message_type") "private" = false →
         pyEqS (evGet d "message_type") "group" = false →
         hasReq .messageEvent d = true → parseEvent d = .ok (.messageEvent, d)))
    ∧ (pyEqS (evGet d "post_type") "notice" = true →
      (pyEqS (evGet d "notice_type") "notify" = true →
        (pyEqS (evGet d "sub_type") "group_card" = true →
          hasReq .groupCard d = true → parseEvent d = .ok (.groupCard, d))
        ∧ (pyEqS (evGet d "sub_type") "group_card" = false →
          hasReq .notifyNotice d = true → parseEvent d = .ok (.notifyNotice, d)))
      ∧ (pyEqS (evGet d "notice_type") "group_upload" = false →
         pyEqS (evGet d "notice_type") "group_admin" = false →
         pyEqS (evGet d "notice_type") "group_decrease" = false →
         pyEqS (evGet d "notice_type") "group_increase" = false →
         pyEqS (evGet d "notice_type") "group_ban" = false →
         pyEqS (evGet d "notice_type") "friend_add" = false →
         pyEqS (evGet d "notice_type") "group_recall" = false →
         pyEqS (evGet d "notice_type") "friend_recall" = false →
         pyEqS (evGet d "notice_type") "notify" = false →
         pyEqS (evGet d "notice_type") "offline_file" = false →
         pyEqS (evGet d "notice_type") "essence" = false →
         hasReq .noticeEvent d = true → parseEvent d = .ok (.noticeEvent, d)))
    ∧ (pyEqS (evGet d "post_type") "request" = true →
      (pyEqS (evGet d "request_type") "friend" = true →
        hasReq .friendReq d = true → parseEvent d = .ok (.friendReq, d))
      ∧ (pyEqS (evGet d "request_type") "group" = true →
        hasReq .groupReq d = true → parseEvent d = .ok (.groupReq, d))
      ∧ (pyEqS (evGet d "request_type") "friend" = false →
         pyEqS (evGet d "request_type") "group" = false →
         hasReq .requestEvent d = true → parseEvent d = .ok (.requestEvent, d)))
    ∧ (pyEqS (evGet d "post_type") "meta_event" = true →
      (pyEqS (evGet d "meta_event_type") "lifecycle" = true →
        hasReq .lifecycle d = true → parseEvent d = .ok (.lifecycle, d))
      ∧ (pyEqS (evGet d "meta_event_type") "heartbeat" = true →
        hasReq .heartbeat d = true → parseEvent d = .ok (.heartbeat, d))
      ∧ (pyEqS (evGet d "meta_event_type") "lifecycle" = false →
         pyEqS (evGet d "meta_event_type") "heartbeat" = false →
         hasReq .metaEvent d = true → parseEvent d = .ok (.metaEvent, d)))
    ∧ (pyEqS (evGet d "post_type") "message" = false →
       pyEqS (evGet d "post_type") "notice" = false →
       pyEqS (evGet d "post_type") "request" = false →
       pyEqS (evGet d "post_type") "meta_event" = false →
       hasReq .event d = true → parseEvent d = .ok (.event, d)) := by
  refine ⟨?_, ?_, ?_, ?_, ?_⟩
  · intro hpt
    refine ⟨?_, ?_, ?_⟩
    · intro hmt hreq
      simp [parseEvent, modelValidate, hpt, hmt, hreq]
    · intro hmt hreq
      have hp := pyEqS_unique hmt (by decide : ¬ "private" = "group")
      simp [parseEvent, modelValidate, hpt, hmt, hp, hreq]
    · intro h1 h2 hreq
      simp [parseEvent, modelValidate, hpt, h1, h2, hreq]
  · intro hpt
    have hpm := pyEqS_unique hpt (by decide : ¬ "message" = "notice")
    refine ⟨?_, ?_⟩
    · intro hnt
      have h1 := pyEqS_unique hnt (by decide : ¬ "group_upload" = "notify")
      have h2 := pyEqS_unique hnt (by decide : ¬ "group_admin" = "notify")
      have h3 := pyEqS_unique hnt (by decide : ¬ "group_decrease" = "notify")
      have h4 := pyEqS_unique hnt (by decide : ¬ "group_increase" = "notify")
      have h5 := pyEqS_unique hnt (by decide : ¬ "group_ban" = "notify")
      have h6 := pyEqS_unique hnt (by decide : ¬ "friend_add" = "notify")
      have h7 := pyEqS_unique hnt (by decide : ¬ "group_recall" = "notify")
      have h8 := pyEqS_unique hnt (by decide : ¬ "friend_recall" = "notify")
      refine ⟨?_, ?_⟩
      · intro hst hreq
        simp [parseEvent, modelValidate, hpm, hpt, hnt, h1, h2, h3, h4, h5, h6, h7, h8,
          hst, hreq]
      · intro hst hreq
        simp [parseEvent, modelValidate, hpm, hpt, hnt, h1, h2, h3, h4, h5, h6, h7, h8,
          hst, hreq]
    · intro h1 h2 h3 h4 h5 h6 h7 h8 h9 h10 h11 hreq
      simp [parseEvent, modelValidate, hpm, hpt, h1, h2, h3, h4, h5, h6, h7, h8, h9,
        h10, h11, hreq]
  · intro hpt
    have hpm := pyEqS_unique hpt (by decide : ¬ "message" = "request")
    have hpn := pyEqS_unique hpt (by decide : ¬ "notice" = "request")
    refine ⟨?_, ?_, ?_⟩
    · intro hrt hreq
      simp [parseEvent, modelValidate, hpm, hpn, hpt, hrt, hreq]
    · intro hrt hreq
      have hf := pyEqS_unique hrt (by decide : ¬ "friend" = "group")
      simp [parseEvent, modelValidate, hpm, hpn, hpt, hrt, hf, hreq]
    · intro h1 h2 hreq
      simp [parseEvent, modelValidate, hpm, hpn, hpt, h1, h2, hreq]
  · intro hpt
    have hpm := pyEqS_unique hpt (by decide : ¬ "message" = "meta_event")
    have hpn := pyEqS_unique hpt (by decide : ¬ "notice" = "meta_event")
    have hpr := pyEqS_unique hpt (by decide : ¬ "request" = "meta_event")
    refine ⟨?_, ?_, ?_⟩
    · intro hmt hreq
      simp [parseEvent, modelValidate, hpm, hpn, hpr, hpt, hmt, hreq]
    · intro hmt hreq
      have hl := pyEqS_unique hmt (by decide : ¬ "lifecycle" = "heartbeat")
      simp [parseEvent, modelValidate, hpm, hpn, hpr, hpt, hmt, hl, hreq]
    · intro h1 h2 hreq
      simp [parseEvent, modelValidate, hpm, hpn, hpr, hpt, h1, h2, hreq]
  · intro h1 h2 h3 h4 hreq
    simp [parseEvent, modelValidate, h1, h2, h3, h4, hreq]

/-- C1 witness: a message record with an unrecognized `message_type`
decodes as the generic `MessageEvent` shape, the whole record
retained. -/
theorem c1_parse_event_witness :
    parseEvent [("post_type", EvVal.str "message"),
      ("message_type", EvVal.str "guild"), ("self_id", EvVal.int 1),
      ("sub_type", EvVal.str "normal"), ("message_id", EvVal.int 5),
      ("user_id", EvVal.int 7), ("message", EvVal.str "hi"),
      ("extra_field", EvVal.other)] =
    .ok (.messageEvent, [("post_type", EvVal.str "message"),
      ("message_type", EvVal.str "guild"), ("self_id", EvVal.int 1),
      ("sub_type", EvVal.str "normal"), ("message_id", EvVal.int 5),
      ("user_id", EvVal.int 7), ("message", EvVal.str "hi"),
      ("extra_field", EvVal.other)]) :=
  ((c1_parse_event _).1 (by decide)).2.2 (by decide) (by decide) (by decide)


/-! ### C7 helper lemmas: `str.replace` step equations and the
character-wise description of each escape stage. -/

/-- Unfolding: replacing in the empty string. -/

theorem replaceL_nil (p : Char) (ps repl : List Char) : replaceL p ps repl [] = [] := by
  simp [replaceL]

/-- Unfolding: the pattern matches at the head, so it is replaced and
scanning resumes after it. -/
theorem replaceL_pos {p : Char} {ps : List Char} {c : Char} {cs : List Char}
    (repl : List Char) (h : pyIsPre (p :: ps) (c :: cs) = true) :
    replaceL p ps repl (c :: cs) = repl ++ replaceL p ps repl (List.drop ps.length cs) := by
  rw [replaceL]
  simp [h]

/-- Unfolding: no match at the head, so the head character is kept. -/
theorem replaceL_neg {p : Char} {ps : List Char} {c : Char} {cs : List Char}
    (repl : List Char) (h : pyIsPre (p :: ps) (c :: cs) = false) :
    replaceL p ps repl (c :: cs) = c :: replaceL p ps repl cs := by
  rw [replaceL]
  simp [h]

/-- Stage 6: undoing `&amp;` on a text whose only escapes are `&amp;`
restores the original text. -/
theorem u3_unescape (s : List Char) :
    replaceL '&' ['a', 'm', 'p', ';'] ['&'] (escAllWith escC1 s) = s := by
  induction s with
  | nil => simp [escAllWith, replaceL_nil]
  | cons c cs ih =>
    by_cases hc : c = '&'
    · subst hc
      have he : escAllWith escC1 ('&' :: cs) =
          '&' :: 'a' :: 'm' :: 'p' :: ';' :: escAllWith escC1 cs := by
        simp [escAllWith, escC1, ampRepl]
      rw [he, replaceL_pos _ (by simp [pyIsPre])]
      simp only [List.length_cons, List.length_nil, List.drop_succ_cons, List.drop_zero]
      simp [ih]
    · have he : escAllWith escC1 (c :: cs) = c :: escAllWith escC1 cs := by
        simp [escAllWith, escC1, hc]
      rw [he, replaceL_neg _ (by simp [pyIsPre, Ne.symm hc])]
      simp [ih]

/-- Stage 1: replacing `&` is the character-wise map `escC1`. -/
theorem e1_escape (s : List Char) :
    replaceL '&' [] ampRepl s = escAllWith escC1 s := by
  induction s with
  | nil => simp [replaceL_nil, escAllWith]
  | cons c cs ih =>
    by_cases hc : c = '&'
    · subst hc
      rw [replaceL_pos _ (by simp [pyIsPre])]
      simp [escAllWith, escC1, ih]
    · rw [replaceL_neg _ (by simp [pyIsPre, Ne.symm hc])]
      simp [escAllWith, escC1, hc, ih]

/-- Stage 2: replacing `[` after stage 1 gives the map `escC2`. -/
theorem e2_escape (s : List Char) :
    replaceL '[' [] lbRepl (escAllWith escC1 s) = escAllWith escC2 s := by
  induction s with
  | nil => simp [replaceL_nil, escAllWith]
  | cons c cs ih =>
    by_cases hc : c = '&'
    · subst hc
      have he : escAllWith escC1 ('&' :: cs) =
          '&' :: 'a' :: 'm' :: 'p' :: ';' :: escAllWith escC1 cs := by
        simp [escAllWith, escC1, ampRepl]
      rw [he, replaceL_neg _ (by simp [pyIsPre]), replaceL_neg _ (by simp [pyIsPre]),
        replaceL_neg _ (by simp [pyIsPre]), replaceL_neg _ (by simp [pyIsPre]),
        replaceL_neg _ (by simp [pyIsPre])]
      simp [escAllWith, escC2, ampRepl, ih]
    · by_cases hc2 : c = '['
      · subst hc2
        have he : escAllWith escC1 ('[' :: cs) = '[' :: escAllWith escC1 cs := by
          simp [escAllWith, escC1]
        rw [he, replaceL_pos _ (by simp [pyIsPre])]
        simp [escAllWith, escC2, ih]
      · have he : escAllWith escC1 (c :: cs) = c :: escAllWith escC1 cs := by
          simp [escAllWith, escC1, hc]
        rw [he, replaceL_neg _ (by simp [pyIsPre, Ne.symm hc2])]
        simp [escAllWith, escC2, hc, hc2, ih]

/-- Stage 3: replacing `]` after stage 2 gives the full escape map. -/
theorem e3_escape (s : List Char) :
    replaceL ']' [] rbRepl (escAllWith escC2 s) = escAllWith escC s := by
  induction s with
  | nil => simp [replaceL_nil, escAllWith]
  | cons c cs ih =>
    by_cases hc : c = '&'
    · subst hc
      have he : escAllWith escC2 ('&' :: cs) =
          '&' :: 'a' :: 'm' :: 'p' :: ';' :: escAllWith escC2 cs := by
        simp [escAllWith, escC2, ampRepl]
      rw [he, replaceL_neg _ (by simp [pyIsPre]), replaceL_neg _ (by simp [pyIsPre]),
        replaceL_neg _ (by simp [pyIsPre]), replaceL_neg _ (by simp [pyIsPre]),
        replaceL_neg _ (by simp [pyIsPre])]
      simp [escAllWith, escC, ampRepl, ih]
    · by_cases hc2 : c = '['
      · subst hc2
        have he : escAllWith escC2 ('[' :: cs) =
            '&' :: '#' :: '9' :: '1' :: ';' :: escAllWith escC2 cs := by
          simp [escAllWith, escC2, lbRepl]
        rw [he, replaceL_neg _ (by simp [pyIsPre]), replaceL_neg _ (by simp [pyIsPre]),
          replaceL_neg _ (by simp [pyIsPre]), replaceL_neg _ (by simp [pyIsPre]),
          replaceL_neg _ (by simp [pyIsPre])]
        simp [escAllWith, escC, lbRepl, ih]
      · by_cases hc3 : c = ']'
        · subst hc3
          have he : escAllWith escC2 (']' :: cs) = ']' :: escAllWith escC2 cs := by
            simp [escAllWith, escC2]
          rw [he, replaceL_pos _ (by simp [pyIsPre])]
          simp [escAllWith, escC, ih]
        · have he : escAllWith escC2 (c :: cs) = c :: escAllWith escC2 cs := by
            simp [escAllWith, escC2, hc, hc2]
          rw [he, replaceL_neg _ (by simp [pyIsPre, Ne.symm hc3])]
          simp [escAllWith, escC, hc, hc2, hc3, ih]

/-- Stage 4: undoing `&#93;` on fully escaped text gives `escC2`. -/
theorem u1_unescape (s : List Char) :
    replaceL '&' ['#', '9', '3', ';'] [']'] (escAllWith escC s) = escAllWith escC2 s := by
  induction s with
  | nil => simp [replaceL_nil, escAllWith]
  | cons c cs ih =>
    by_cases hc : c = '&'
    · subst hc
      have he : escAllWith escC ('&' :: cs) =
          '&' :: 'a' :: 'm' :: 'p' :: ';' :: escAllWith escC cs := by
        simp [escAllWith, escC, ampRepl]
      rw [he, replaceL_neg _ (by simp [pyIsPre]), replaceL_neg _ (by simp [pyIsPre]),
        replaceL_neg _ (by simp [pyIsPre]), replaceL_neg _ (by simp [pyIsPre]),
        replaceL_neg _ (by simp [pyIsPre])]
      simp [escAllWith, escC2, ampRepl, ih]
    · by_cases hc2 : c = '['
      · subst hc2
        have he : escAllWith escC ('[' :: cs) =
            '&' :: '#' :: '9' :: '1' :: ';' :: escAllWith escC cs := by
          simp [escAllWith, escC, lbRepl]
        rw [he, replaceL_neg _ (by simp [pyIsPre]), replaceL_neg _ (by simp [pyIsPre]),
          replaceL_neg _ (by simp [pyIsPre]), replaceL_neg _ (by simp [pyIsPre]),
          replaceL_neg _ (by simp [pyIsPre])]
        simp [escAllWith, escC2, lbRepl, ih]
      · by_cases hc3 : c = ']'
        · subst hc3
          have he : escAllWith escC (']' :: cs) =
              '&' :: '#' :: '9' :: '3' :: ';' :: escAllWith escC cs := by
            simp [escAllWith, escC, rbRepl]
          rw [he, replaceL_pos _ (by simp [pyIsPre])]
          simp only [List.length_cons, List.length_nil, List.drop_succ_cons,
            List.drop_zero]
          simp [escAllWith, escC2, ih]
        · have he : escAllWith escC (c :: cs) = c :: escAllWith escC cs := by
            simp [escAllWith, escC, hc, hc2, hc3]
          rw [he, replaceL_neg _ (by simp [pyIsPre, Ne.symm hc])]
          simp [escAllWith, escC2, hc, hc2, hc3, ih]

/-- Stage 5: undoing `&#91;` then gives `escC1`. -/
theorem u2_unescape (s : List Char) :
    replaceL '&' ['#', '9', '1', ';'] ['['] (escAllWith escC2 s) = escAllWith escC1 s := by
  induction s with
  | nil => simp [replaceL_nil, escAllWith]
  | cons c cs ih =>
    by_cases hc : c = '&'
    · subst hc
      have he : escAllWith escC2 ('&' :: cs) =
          '&' :: 'a' :: 'm' :: 'p' :: ';' :: escAllWith escC2 cs := by
        simp [escAllWith, escC2, ampRepl]
      rw [he, replaceL_neg _ (by simp [pyIsPre]), replaceL_neg _ (by simp [pyIsPre]),
        replaceL_neg _ (by simp [pyIsPre]), replaceL_neg _ (by simp [pyIsPre]),
        replaceL_neg _ (by simp [pyIsPre])]
      simp [escAllWith, escC1, ampRepl, ih]
    · by_cases hc2 : c = '['
      · subst hc2
        have he : escAllWith escC2 ('[' :: cs) =
            '&' :: '#' :: '9' :: '1' :: ';' :: escAllWith escC2 cs := by
          simp [escAllWith, escC2, lbRepl]
        rw [he, replaceL_pos _ (by simp [pyIsPre])]
        simp only [List.length_cons, List.length_nil, List.drop_succ_cons,
          List.drop_zero]
        simp [escAllWith, escC1, ih]
      · have he : escAllWith escC2 (c :: cs) = c :: escAllWith escC2 cs := by
          simp [escAllWith, escC2, hc, hc2]
        rw [he, replaceL_neg _ (by simp [pyIsPre, Ne.symm hc])]
        simp [escAllWith, escC1, hc, hc2, ih]

/-- C7: `escape_text` replaces `&` then `[` then `]` (in that order)
with `&amp;`, `&#91;`, `&#93;`; `unescape_text` reverses the three
substitutions in the opposite order (`&#93;` then `&#91;` then `&amp;`
last); consequently for every string `s`,
`unescape_text(escape_text(s)) = s`. -/
theorem c7_escape_unescape (s : String) : unescape_text (escape_text s) = s := by
  have h1 : escapeL s.data = escAllWith escC s.data := by
    unfold escapeL
    rw [e1_escape, e2_escape, e3_escape]
  show (⟨unescapeL (escapeL s.data)⟩ : String) = s
  unfold unescapeL
  rw [h1, u1_unescape, u2_unescape, u3_unescape]

/-- Helper for C10: every member is bounded by the folded maximum. -/
theorem mem_le_foldr_max (l : List Nat) (k : Nat) (hk : k ∈ l) :
    k ≤ l.foldr max 0 := by
  induction l with
  | nil => simp at hk
  | cons x xs ih =>
    rcases List.mem_cons.mp hk with h | h
    · subst h; exact le_max_left _ _
    · exact le_trans (ih h) (le_max_right _ _)

/-- Helper for C10: a dereferenceable address is one of the heap keys. -/
theorem lookup_some_key_mem (h : Heap) (a : Nat) (d : PyDict)
    (hl : hLookup h a = some d) : a ∈ h.map (fun p => p.1) := by
  induction h with
  | nil => simp [hLookup] at hl
  | cons p t ih =>
    obtain ⟨k, v⟩ := p
    simp only [hLookup] at hl
    by_cases hak : a = k
    · simp [hak]
    · rw [if_neg hak] at hl
      simp only [List.map_cons, List.mem_cons]
      exact Or.inr (ih hl)

/-- Helper for C10: a dereferenceable address is never the fresh one. -/
theorem lookup_some_ne_fresh (h : Heap) (a : Nat) (d : PyDict)
    (hl : hLookup h a = some d) : ¬ a = freshAddr h := by
  intro hc
  have hm := lookup_some_key_mem h a d hl
  have hle := mem_le_foldr_max _ _ hm
  simp only [freshAddr] at hc
  omega

/-- Helper for C10: the fresh address is unallocated. -/
theorem lookup_fresh (h : Heap) : hLookup h (freshAddr h) = Option.none := by
  rcases hl : hLookup h (freshAddr h) with _ | d
  · rfl
  · exact absurd rfl (lookup_some_ne_fresh h _ d hl)

/-- Helper for C10: overwriting one address leaves every other address
unchanged. -/
theorem hLookup_hSet_ne (h : Heap) (ra : Nat) (nd : PyDict) (a : Nat)
    (hne : ¬ a = ra) : hLookup (hSet h ra nd) a = hLookup h a := by
  induction h with
  | nil => rfl
  | cons p t ih =>
    obtain ⟨k, v⟩ := p
    by_cases hk : k = ra
    · simp [hSet, hLookup, hk, hne, ih]
    · by_cases hak : a = k
      · simp [hSet, hLookup, hk, hak]
      · simp [hSet, hLookup, hk, hak, ih]

/-- Helper for C10: the entry loop of `deep_merge` writes only to the
result object `ra` and to addresses that are fresh for the heap it was
started on; every other pre-existing object is untouched. -/
theorem entries_pres (n : Nat)
    (hP : ∀ h a1 a2 h' r, deepMerge n h a1 a2 = some (h', r) →
      (∀ a d, hLookup h a = some d → hLookup h' a = some d)
      ∧ hLookup h r = Option.none) :
    ∀ (es : List (String × HVal)) (h : Heap) (ra : Nat) (h' : Heap),
      mergeEntries n h ra es = some h' →
      ∀ a d, ¬ a = ra → hLookup h a = some d → hLookup h' a = some d := by
  intro es
  induction es with
  | nil =>
    intro h ra h' hme a d hne hl
    simp only [mergeEntries, Option.some.injEq] at hme
    rw [← hme]
    exact hl
  | cons kv rest ih =>
    intro h ra h' hme a d hne hl
    obtain ⟨k, v⟩ := kv
    simp only [mergeEntries] at hme
    split at hme
    · simp at hme
    · rename_i rd hrd
      split at hme
      · rename_i b1 b2 hdd
        split at hme
        · simp at hme
        · rename_i h2 rsub hdm
          split at hme
          · simp at hme
          · rename_i rd2 hrd2
            have hl2 : hLookup h2 a = some d := (hP h b1 b2 h2 rsub hdm).1 a d hl
            have hl3 : hLookup (hSet h2 ra (dSet rd2 k (HVal.ref rsub))) a = some d := by
              rw [hLookup_hSet_ne _ _ _ _ hne]; exact hl2
            exact ih _ _ _ hme a d hne hl3
      · have hl3 : hLookup (hSet h ra (dSet rd k v)) a = some d := by
          rw [hLookup_hSet_ne _ _ _ _ hne]; exact hl
        exact ih _ _ _ hme a d hne hl3

/-- Helper for C10: `deep_merge` extends the heap with fresh objects
only — every object of the input heap is unchanged, and the returned
address is new. -/
theorem merge_pres : ∀ (n : Nat) (h : Heap) (a1 a2 : Nat) (h' : Heap) (r : Nat),
    deepMerge n h a1 a2 = some (h', r) →
    (∀ a d, hLookup h a = some d → hLookup h' a = some d)
    ∧ hLookup h r = Option.none := by
  intro n
  induction n with
  | zero => intro h a1 a2 h' r hm; simp [deepMerge] at hm
  | succ m ih =>
    intro h a1 a2 h' r hm
    simp only [deepMerge] at hm
    split at hm
    · simp at hm
    · rename_i d1 hd1
      split at hm
      · simp at hm
      · rename_i d2 hd2
        split at hm
        · rename_i h2 hme
          simp only [Option.some.injEq, Prod.mk.injEq] at hm
          obtain ⟨rfl, rfl⟩ := hm
          constructor
          · intro a d hl
            have hane : ¬ a = freshAddr h := lookup_some_ne_fresh _ _ _ hl
            have hl1 : hLookup ((freshAddr h, d1) :: h) a = some d := by
              simp only [hLookup]
              rw [if_neg hane]
              exact hl
            exact entries_pres m ih d2 _ _ _ hme a d hane hl1
          · exact lookup_fresh h
        · simp at hm

/-- C10: `deep_merge(d1, d2)` returns its merged result as a fresh
mapping (an address unallocated in the input heap) and leaves both
argument mappings — and every mapping nested inside them, at every
depth — unchanged: each address allocated in the input heap still
dereferences to exactly its old dict body.  Nested mappings present in
both inputs are merged into newly built mappings, never mutated in
place. -/
theorem c10_deep_merge_pure (fuel : Nat) (h : Heap) (a1 a2 : Nat) (h' : Heap) (r : Nat)
    (hm : deepMerge fuel h a1 a2 = some (h', r)) :
    (∀ a d, hLookup h a = some d → hLookup h' a = some d)
    ∧ hLookup h r = Option.none :=
  merge_pres fuel h a1 a2 h' r hm

/-- C10 witness computation: a concrete two-object heap merge. -/
theorem c10_w_hm :
    deepMerge 1 [(0, [("x", HVal.prim "1")]), (1, [("y", HVal.prim "2")])] 0 1 =
      some ([(2, [("x", HVal.prim "1"), ("y", HVal.prim "2")]),
             (0, [("x", HVal.prim "1")]), (1, [("y", HVal.prim "2")])], 2) := by
  simp [deepMerge, mergeEntries, hLookup, freshAddr, isDictDict, dGet, dSet, hSet]

/-- C10 witness: the concrete merge leaves both argument objects
unchanged and the result address 2 is fresh. -/
theorem c10_deep_merge_pure_witness :
    (∀ a d, hLookup [(0, [("x", HVal.prim "1")]), (1, [("y", HVal.prim "2")])] a = some d →
      hLookup [(2, [("x", HVal.prim "1"), ("y", HVal.prim "2")]),
               (0, [("x", HVal.prim "1")]), (1, [("y", HVal.prim "2")])] a = some d)
    ∧ hLookup [(0, [("x", HVal.prim "1")]), (1, [("y", HVal.prim "2")])] 2 = Option.none :=
  c10_deep_merge_pure 1 _ 0 1 _ 2 c10_w_hm
